import Mathlib

/-!
Verification of the notification-server core (Go) against its specification.

The definitions below are a shallow embedding of the repository source:

* `CircuitBreaker.Call` embeds `(*CircuitBreaker).Call` from websocket.go
  (the breaker guarding the backend authentication call).  Wall-clock time is
  an explicit `Nat` parameter `now`; `time.Since(cb.lastFailure) < timeout`
  becomes `now - lastFailure < timeout`.  The wrapped function `fn` is
  replaced by its observable behaviour, a Bool `fnFails`; the result records
  whether `fn` was invoked.
* `IsDevelopment` / `IsFakeAuthEnabled` embed the helpers of config.go, with
  the process-global `AppConfig` pointer as an explicit `Option Environment`.
* `authenticate` embeds the token-dispatch logic of `(*Client).authenticate`
  in websocket.go: the development bypass, the sentinel-token rejection, and
  otherwise the delegation to the breaker-guarded backend request (the HTTP
  exchange itself is outside the embedding and is represented by the
  `backendCall` constructor).
* `Hub.register`, `Hub.unregister`, `Hub.sendToUser`, `Hub.broadcastToTeam`,
  `Hub.broadcastToAllTeams`, `Hub.getTotalClientCount`, `Hub.healthCheck`
  embed the corresponding receiver methods of the current websocket.go Hub.
  Go maps become association lists, `*Client` pointers become session ids
  keyed into a channel store, and the bounded `send` channel becomes an
  explicit `Channel` (capacity, buffer, closed flag).  Operations that in Go
  would panic (send on a closed channel, close of a closed channel) return
  `none`.
-/

namespace NotifServer

/-! ## Association-list helpers (Go map operations) -/

def lookupA {α β : Type} [DecidableEq α] (l : List (α × β)) (k : α) : Option β :=
  match l with
  | [] => none
  | (k', v) :: rest => if k' = k then some v else lookupA rest k

def insertA {α β : Type} [DecidableEq α] (l : List (α × β)) (k : α) (v : β) :
    List (α × β) :=
  match l with
  | [] => [(k, v)]
  | (k', v') :: rest => if k' = k then (k, v) :: rest else (k', v') :: insertA rest k v

def eraseA {α β : Type} [DecidableEq α] (l : List (α × β)) (k : α) : List (α × β) :=
  match l with
  | [] => []
  | (k', v') :: rest => if k' = k then rest else (k', v') :: eraseA rest k

theorem lookupA_nil {α β : Type} [DecidableEq α] (k : α) :
    lookupA ([] : List (α × β)) k = none := rfl

theorem lookupA_cons {α β : Type} [DecidableEq α] (k' : α) (v' : β) (rest : List (α × β))
    (k : α) : lookupA ((k', v') :: rest) k = if k' = k then some v' else lookupA rest k := rfl

theorem insertA_cons {α β : Type} [DecidableEq α] (k' : α) (v' : β) (rest : List (α × β))
    (k : α) (v : β) :
    insertA ((k', v') :: rest) k v =
      if k' = k then (k, v) :: rest else (k', v') :: insertA rest k v := rfl

theorem eraseA_cons {α β : Type} [DecidableEq α] (k' : α) (v' : β) (rest : List (α × β))
    (k : α) : eraseA ((k', v') :: rest) k = if k' = k then rest else (k', v') :: eraseA rest k :=
  rfl

theorem lookupA_insertA_self {α β : Type} [DecidableEq α] (l : List (α × β)) (k : α) (v : β) :
    lookupA (insertA l k v) k = some v := by
  induction l with
  | nil => simp [insertA, lookupA]
  | cons p rest ih =>
    obtain ⟨k', v'⟩ := p
    by_cases h : k' = k <;> simp [insertA, lookupA, h, ih]

theorem lookupA_insertA_ne {α β : Type} [DecidableEq α] (l : List (α × β)) (k k' : α) (v : β)
    (h : k ≠ k') : lookupA (insertA l k v) k' = lookupA l k' := by
  induction l with
  | nil => simp [insertA, lookupA, h]
  | cons p rest ih =>
    obtain ⟨k₀, v₀⟩ := p
    by_cases h₀ : k₀ = k
    · subst h₀
      simp [insertA, lookupA, h]
    · simp only [insertA, if_neg h₀]
      by_cases h₁ : k₀ = k' <;> simp [lookupA, h₁, ih]

theorem lookupA_eq_none_of_not_mem {α β : Type} [DecidableEq α] (l : List (α × β)) (k : α)
    (h : k ∉ l.map Prod.fst) : lookupA l k = none := by
  induction l with
  | nil => simp [lookupA]
  | cons p rest ih =>
    obtain ⟨k', v'⟩ := p
    simp only [List.map_cons, List.mem_cons] at h
    push_neg at h
    have hne : k' ≠ k := fun hEq => h.1 hEq.symm
    simp only [lookupA, if_neg hne]
    exact ih h.2

theorem lookupA_eraseA_self {α β : Type} [DecidableEq α] (l : List (α × β)) (k : α)
    (hnodup : (l.map Prod.fst).Nodup) : lookupA (eraseA l k) k = none := by
  induction l with
  | nil => simp [eraseA, lookupA]
  | cons p rest ih =>
    obtain ⟨k', v'⟩ := p
    simp only [List.map_cons, List.nodup_cons] at hnodup
    by_cases h : k' = k
    · subst h
      simp only [eraseA, if_pos rfl]
      exact lookupA_eq_none_of_not_mem rest k' hnodup.1
    · simp [eraseA, lookupA, h, ih hnodup.2]

theorem lookupA_eraseA_ne {α β : Type} [DecidableEq α] (l : List (α × β)) (k k' : α)
    (h : k ≠ k') : lookupA (eraseA l k) k' = lookupA l k' := by
  induction l with
  | nil => simp [eraseA, lookupA]
  | cons p rest ih =>
    obtain ⟨k₀, v₀⟩ := p
    by_cases h₀ : k₀ = k
    · subst h₀
      simp [eraseA, lookupA, h]
    · simp only [eraseA, if_neg h₀]
      by_cases h₁ : k₀ = k' <;> simp [lookupA, h₁, ih]

theorem mem_insertA {α β : Type} [DecidableEq α] (l : List (α × β)) (k : α) (v : β) (p : α × β)
    (h : p ∈ insertA l k v) : p ∈ l ∨ p = (k, v) := by
  induction l with
  | nil =>
    simp only [insertA, List.mem_singleton] at h
    exact Or.inr h
  | cons q rest ih =>
    obtain ⟨k', v'⟩ := q
    by_cases h₀ : k' = k
    · simp only [insertA, if_pos h₀, List.mem_cons] at h
      rcases h with h | h
      · exact Or.inr h
      · exact Or.inl (List.mem_cons_of_mem _ h)
    · simp only [insertA, if_neg h₀, List.mem_cons] at h
      rcases h with h | h
      · exact Or.inl (by simp [h])
      · rcases ih h with h' | h'
        · exact Or.inl (List.mem_cons_of_mem _ h')
        · exact Or.inr h'

theorem mem_eraseA {α β : Type} [DecidableEq α] (l : List (α × β)) (k : α) (p : α × β)
    (h : p ∈ eraseA l k) : p ∈ l := by
  induction l with
  | nil => simp [eraseA] at h
  | cons q rest ih =>
    obtain ⟨k', v'⟩ := q
    by_cases h₀ : k' = k
    · simp only [eraseA, if_pos h₀] at h
      exact List.mem_cons_of_mem _ h
    · simp only [eraseA, if_neg h₀, List.mem_cons] at h
      rcases h with h | h
      · simp [h]
      · exact List.mem_cons_of_mem _ (ih h)

theorem lookupA_mem {α β : Type} [DecidableEq α] (l : List (α × β)) (k : α) (v : β)
    (h : lookupA l k = some v) : (k, v) ∈ l := by
  induction l with
  | nil => simp [lookupA] at h
  | cons q rest ih =>
    obtain ⟨k', v'⟩ := q
    by_cases h₀ : k' = k
    · subst h₀
      simp [lookupA] at h
      simp [h]
    · simp only [lookupA, if_neg h₀] at h
      exact List.mem_cons_of_mem _ (ih h)

/-! ## Circuit breaker (websocket.go, `CircuitBreaker.Call`) -/

structure CircuitBreaker where
  failures : Nat
  lastFailure : Nat
deriving DecidableEq, Repr

/-- Configuration inputs of the breaker (`AppConfig.CircuitBreaker`). -/
structure CBConfig where
  threshold : Nat
  timeout : Nat
deriving DecidableEq, Repr

inductive CallOutcome where
  /-- the synthetic "circuit breaker open - backend unavailable" error -/
  | breakerOpen
  /-- the error returned by `fn` -/
  | fnError
  /-- nil -/
  | ok
deriving DecidableEq, Repr

structure CallResult where
  outcome : CallOutcome
  /-- whether the wrapped `fn` was invoked during this call -/
  invoked : Bool
  state : CircuitBreaker
deriving DecidableEq, Repr

/-- Embedding of `(*CircuitBreaker).Call` from websocket.go. -/
def CircuitBreaker.Call (cfg : CBConfig) (cb : CircuitBreaker) (now : Nat)
    (fnFails : Bool) : CallResult :=
  if cfg.threshold ≤ cb.failures ∧ now - cb.lastFailure < cfg.timeout then
    ⟨.breakerOpen, false, cb⟩
  else
    -- reset after timeout
    let cb1 : CircuitBreaker :=
      if cfg.threshold ≤ cb.failures then { cb with failures := 0 } else cb
    if fnFails then
      ⟨.fnError, true, { failures := cb1.failures + 1, lastFailure := now }⟩
    else
      -- reset failures on success
      ⟨.ok, true, { cb1 with failures := if 0 < cb1.failures then 0 else cb1.failures }⟩

/-- The zero value of the package-level `backendCircuitBreaker`. -/
def CircuitBreaker.initial : CircuitBreaker := ⟨0, 0⟩

/-- The spec defines the breaker as open when the failure count has reached
the threshold and the cooldown has not yet elapsed. -/
def CircuitBreaker.isOpen (cfg : CBConfig) (cb : CircuitBreaker) (now : Nat) : Prop :=
  cfg.threshold ≤ cb.failures ∧ now - cb.lastFailure < cfg.timeout

instance (cfg : CBConfig) (cb : CircuitBreaker) (now : Nat) :
    Decidable (CircuitBreaker.isOpen cfg cb now) := by
  unfold CircuitBreaker.isOpen; infer_instance

/-- Claim C5: with threshold 2: two consecutive failing calls (at times `t1 ≤ t2`)
open the circuit; a third call issued before the cooldown has elapsed
returns the breaker-open error without invoking `fn`; after the cooldown a
call whose `fn` succeeds returns nil and leaves the failure count at 0. -/
theorem circuit_breaker_threshold_two (tm t1 t2 t3 t4 : Nat) (b : Bool)
    (h3 : t3 - t2 < tm) (h4 : tm ≤ t4 - t2) :
    let cfg : CBConfig := ⟨2, tm⟩
    let r1 := CircuitBreaker.Call cfg CircuitBreaker.initial t1 true
    let r2 := CircuitBreaker.Call cfg r1.state t2 true
    let r3 := CircuitBreaker.Call cfg r2.state t3 b
    let r4 := CircuitBreaker.Call cfg r2.state t4 false
    r2.state.failures = 2 ∧
    CircuitBreaker.isOpen cfg r2.state t3 ∧
    r3.outcome = .breakerOpen ∧ r3.invoked = false ∧ r3.state = r2.state ∧
    r4.outcome = .ok ∧ r4.invoked = true ∧ r4.state.failures = 0 := by
  intro cfg r1 r2 r3 r4
  have hr1 : r1 = ⟨.fnError, true, ⟨1, t1⟩⟩ := by
    simp [r1, CircuitBreaker.Call, CircuitBreaker.initial, cfg]
  have hr2 : r2 = ⟨.fnError, true, ⟨2, t2⟩⟩ := by
    simp [r2, hr1, CircuitBreaker.Call, cfg]
  have hr3 : r3 = ⟨.breakerOpen, false, ⟨2, t2⟩⟩ := by
    simp [r3, hr2, CircuitBreaker.Call, cfg, h3]
  have hr4 : r4 = ⟨.ok, true, ⟨0, t2⟩⟩ := by
    simp [r4, hr2, CircuitBreaker.Call, cfg, Nat.not_lt.mpr h4]
  refine ⟨by simp [hr2], ⟨by simp [hr2], by simp [hr2, h3]⟩, by simp [hr3],
    by simp [hr3], by simp [hr3, hr2], by simp [hr4], by simp [hr4], by simp [hr4]⟩

theorem circuit_breaker_threshold_two_witness :
    (3 - 2 < 10 ∧ 10 ≤ 12 - 2) ∧
    (let cfg : CBConfig := ⟨2, 10⟩
     let r1 := CircuitBreaker.Call cfg CircuitBreaker.initial 1 true
     let r2 := CircuitBreaker.Call cfg r1.state 2 true
     let r3 := CircuitBreaker.Call cfg r2.state 3 false
     let r4 := CircuitBreaker.Call cfg r2.state 12 false
     r2.state.failures = 2 ∧
     CircuitBreaker.isOpen cfg r2.state 3 ∧
     r3.outcome = .breakerOpen ∧ r3.invoked = false ∧ r3.state = r2.state ∧
     r4.outcome = .ok ∧ r4.invoked = true ∧ r4.state.failures = 0) :=
  ⟨⟨by decide, by decide⟩,
   circuit_breaker_threshold_two 10 1 2 3 12 false (by decide) (by decide)⟩

/-- Claim C9, half-open probe: when the failure count has reached the threshold and
the cooldown has elapsed, the failure count is reset to 0 before `fn` runs,
so `fn` is invoked; if the probe fails the count is 1 afterwards and (for
any threshold of at least 2) the breaker is closed again, so the very next
call still invokes `fn` rather than failing fast. -/
theorem circuit_breaker_failed_probe (cfg : CBConfig) (cb : CircuitBreaker)
    (now : Nat) (hth : 2 ≤ cfg.threshold) (hfc : cfg.threshold ≤ cb.failures)
    (helapsed : cfg.timeout ≤ now - cb.lastFailure) :
    let r := CircuitBreaker.Call cfg cb now true
    r.invoked = true ∧
    r.outcome = .fnError ∧
    r.state.failures = 1 ∧
    ¬ CircuitBreaker.isOpen cfg r.state now ∧
    ∀ (now' : Nat) (b : Bool), (CircuitBreaker.Call cfg r.state now' b).invoked = true := by
  intro r
  have hr : r = ⟨.fnError, true, ⟨1, now⟩⟩ := by
    simp [r, CircuitBreaker.Call, hfc, Nat.not_lt.mpr helapsed]
  have hlt : ¬ cfg.threshold ≤ 1 := by omega
  refine ⟨by simp [hr], by simp [hr], by simp [hr], ?_, ?_⟩
  · simp only [hr, CircuitBreaker.isOpen, not_and]
    intro h
    exact absurd h hlt
  · intro now' b
    simp only [hr, CircuitBreaker.Call, hlt, false_and, if_false]
    cases b <;> simp

theorem circuit_breaker_failed_probe_witness :
    (2 ≤ 2 ∧ 2 ≤ 2 ∧ 10 ≤ 20 - 5) ∧
    (let r := CircuitBreaker.Call ⟨2, 10⟩ ⟨2, 5⟩ 20 true
     r.invoked = true ∧
     r.outcome = .fnError ∧
     r.state.failures = 1 ∧
     ¬ CircuitBreaker.isOpen ⟨2, 10⟩ r.state 20 ∧
     ∀ (now' : Nat) (b : Bool), (CircuitBreaker.Call ⟨2, 10⟩ r.state now' b).invoked = true) :=
  ⟨⟨by decide, by decide, by decide⟩,
   circuit_breaker_failed_probe ⟨2, 10⟩ ⟨2, 5⟩ 20 (by decide) (by decide) (by decide)⟩

/-! ## Configuration (config.go) and authentication dispatch (websocket.go) -/

/-- The `Environment` sub-struct of `Config` in config.go. -/
structure Environment where
  /-- "development" or "production" -/
  mode : String
  allowAllOrigins : Bool
  enableFakeAuth : Bool
deriving DecidableEq, Repr

/-- `setDefaults` in config.go: an empty mode defaults to "production". -/
def setDefaultMode (mode : String) : String :=
  if mode = "" then "production" else mode

/-- `IsDevelopment` in config.go.  The global `AppConfig` pointer is the
explicit argument; `none` is the nil (not-loaded) state. -/
def IsDevelopment (appConfig : Option Environment) : Bool :=
  match appConfig with
  | none => false
  | some c => c.mode == "development"

/-- `IsFakeAuthEnabled` in config.go: only allow fake auth in development. -/
def IsFakeAuthEnabled (appConfig : Option Environment) : Bool :=
  match appConfig with
  | none => false
  | some c => c.enableFakeAuth && IsDevelopment appConfig

/-- The handshake record (`AuthMessage` in models.go). -/
structure AuthMessage where
  type : String
  userID : String
  teamID : String
  token : String
deriving DecidableEq, Repr

/-- Result of the token dispatch in `(*Client).authenticate` (websocket.go). -/
inductive AuthResult where
  /-- the development bypass: identity fields set from the handshake, no
  backend call is made -/
  | fakeSuccess (userID : String) (email : String) (teamID : String)
  /-- the "invalid authentication token" error (sentinel token while the
  bypass is disabled) -/
  | invalidToken
  /-- delegation to the circuit-breaker-guarded backend request (the HTTP
  exchange is outside the embedding) -/
  | backendCall (token : String)
deriving DecidableEq, Repr

/-- Embedding of the token dispatch of `(*Client).authenticate` in
websocket.go: the bypass branch, the sentinel rejection, and the fallthrough
to `backendCircuitBreaker.Call`. -/
def authenticate (appConfig : Option Environment) (msg : AuthMessage) : AuthResult :=
  if IsFakeAuthEnabled appConfig && msg.token == "fake_development_token" then
    .fakeSuccess msg.userID ("fake_" ++ msg.userID ++ "@example.com") msg.teamID
  else if msg.token == "fake_development_token" then
    .invalidToken
  else
    .backendCall msg.token

/-- `handleWebSocket` (handlers.go) sends the client to `hub.register` only
when `authenticate` returned nil; a backend-delegated attempt registers only
if the backend verification succeeds (`backendOK`). -/
def wsRegisters (appConfig : Option Environment) (msg : AuthMessage)
    (backendOK : Bool) : Bool :=
  match authenticate appConfig msg with
  | .fakeSuccess _ _ _ => true
  | .invalidToken => false
  | .backendCall _ => backendOK

/-- Claim C6: a handshake carrying the sentinel token "fake_development_token"
succeeds via the bypass (userID from the handshake, synthetic email, no
backend call) exactly when the fake-auth bypass is enabled; when the bypass
is not enabled, `authenticate` returns the invalid-token error and the
session is never registered (for any behaviour of the backend). -/
theorem sentinel_token_gated_by_bypass (appConfig : Option Environment)
    (msg : AuthMessage) (htok : msg.token = "fake_development_token") :
    ((∃ u e t, authenticate appConfig msg = .fakeSuccess u e t) ↔
      IsFakeAuthEnabled appConfig = true) ∧
    (IsFakeAuthEnabled appConfig = true →
      authenticate appConfig msg =
        .fakeSuccess msg.userID ("fake_" ++ msg.userID ++ "@example.com") msg.teamID) ∧
    (IsFakeAuthEnabled appConfig = false →
      authenticate appConfig msg = .invalidToken ∧
      ∀ backendOK, wsRegisters appConfig msg backendOK = false) := by
  refine ⟨⟨?_, ?_⟩, ?_, ?_⟩
  · rintro ⟨u, e, t, hEq⟩
    by_cases hfa : IsFakeAuthEnabled appConfig = true
    · exact hfa
    · rw [Bool.not_eq_true] at hfa
      simp [authenticate, hfa, htok] at hEq
  · intro hfa
    exact ⟨msg.userID, "fake_" ++ msg.userID ++ "@example.com", msg.teamID,
      by simp [authenticate, hfa, htok]⟩
  · intro hfa
    simp [authenticate, hfa, htok]
  · intro hfa
    have hres : authenticate appConfig msg = .invalidToken := by
      simp [authenticate, hfa, htok]
    exact ⟨hres, fun backendOK => by simp [wsRegisters, hres]⟩

theorem sentinel_token_gated_by_bypass_witness :
    authenticate (some ⟨"development", true, true⟩)
      ⟨"auth", "u1", "t1", "fake_development_token"⟩ =
      .fakeSuccess "u1" "fake_u1@example.com" "t1" ∧
    authenticate (some ⟨"production", false, true⟩)
      ⟨"auth", "u1", "t1", "fake_development_token"⟩ = .invalidToken ∧
    ∀ backendOK, wsRegisters (some ⟨"production", false, true⟩)
      ⟨"auth", "u1", "t1", "fake_development_token"⟩ backendOK = false :=
  ⟨(sentinel_token_gated_by_bypass (some ⟨"development", true, true⟩)
      ⟨"auth", "u1", "t1", "fake_development_token"⟩ rfl).2.1 (by decide),
   ((sentinel_token_gated_by_bypass (some ⟨"production", false, true⟩)
      ⟨"auth", "u1", "t1", "fake_development_token"⟩ rfl).2.2 (by decide)).1,
   ((sentinel_token_gated_by_bypass (some ⟨"production", false, true⟩)
      ⟨"auth", "u1", "t1", "fake_development_token"⟩ rfl).2.2 (by decide)).2⟩

/-- Claim C10: the function `IsFakeAuthEnabled` is true exactly when the configuration is
loaded with `EnableFakeAuth` set and mode "development"; hence for any
loaded configuration whose mode is not "development" (in particular the
default production mode produced by `setDefaults` for an empty mode) the
sentinel token always yields the invalid-token error, even with the
`EnableFakeAuth` flag set. -/
theorem fake_auth_requires_development_mode :
    (∀ appConfig : Option Environment,
      IsFakeAuthEnabled appConfig = true ↔
        ∃ c, appConfig = some c ∧ c.enableFakeAuth = true ∧ c.mode = "development") ∧
    (∀ (c : Environment) (msg : AuthMessage), c.mode ≠ "development" →
      msg.token = "fake_development_token" →
      authenticate (some c) msg = .invalidToken) ∧
    setDefaultMode "" = "production" := by
  refine ⟨?_, ?_, rfl⟩
  · intro appConfig
    constructor
    · intro h
      match appConfig with
      | none => simp [IsFakeAuthEnabled] at h
      | some c =>
        simp only [IsFakeAuthEnabled, IsDevelopment, Bool.and_eq_true, beq_iff_eq] at h
        exact ⟨c, rfl, h.1, h.2⟩
    · rintro ⟨c, rfl, hfa, hmode⟩
      simp [IsFakeAuthEnabled, IsDevelopment, hfa, hmode]
  · intro c msg hmode htok
    have hdev : IsDevelopment (some c) = false := by
      simp [IsDevelopment, hmode]
    have hfa : IsFakeAuthEnabled (some c) = false := by
      simp [IsFakeAuthEnabled, hdev]
    simp [authenticate, hfa, htok]

theorem fake_auth_requires_development_mode_witness :
    (IsFakeAuthEnabled (some ⟨"production", false, true⟩) = true ↔
      ∃ c, (some ⟨"production", false, true⟩ : Option Environment) = some c ∧
        c.enableFakeAuth = true ∧ c.mode = "development") ∧
    authenticate (some ⟨"production", false, true⟩)
      ⟨"auth", "u1", "t1", "fake_development_token"⟩ = .invalidToken :=
  ⟨(fake_auth_requires_development_mode.1 (some ⟨"production", false, true⟩)),
   fake_auth_requires_development_mode.2.1 ⟨"production", false, true⟩
     ⟨"auth", "u1", "t1", "fake_development_token"⟩ (by decide) rfl⟩

/-! ## Hub / registry (websocket.go) -/

/-- A routed payload (`Message` in models.go). -/
structure Message where
  notificationID : String
  targetTeamID : String
  targetUserID : String
  senderUserID : String
  messageType : String
  body : String
  timestamp : Int
deriving DecidableEq, Repr

/-- `NewMessage` in models.go, with the clock an explicit argument. -/
def NewMessage (notificationID targetTeamID targetUserID senderUserID messageType body : String)
    (now : Int) : Message :=
  ⟨notificationID, targetTeamID, targetUserID, senderUserID, messageType, body, now⟩

/-- The bounded `send` channel of a client (`make(chan []byte, buffer)`). -/
structure Channel where
  cap : Nat
  buf : List Message
  closed : Bool
deriving DecidableEq, Repr

inductive SendOutcome where
  /-- the `client.send <- message` case was taken -/
  | sent
  /-- the channel buffer is full: the `default` case of the select fires
  (the `time.After` case can never be ready immediately, so the
  non-blocking `default` wins whenever the buffer is full) -/
  | full
  /-- sending on a closed channel panics in Go -/
  | panicked
deriving DecidableEq, Repr

/-- Non-blocking send on a buffered channel. -/
def Channel.trySend (ch : Channel) (m : Message) : SendOutcome × Channel :=
  if ch.closed then (.panicked, ch)
  else if ch.buf.length < ch.cap then (.sent, { ch with buf := ch.buf ++ [m] })
  else (.full, ch)

/-- `close(ch)`; closing an already-closed channel panics in Go (`none`). -/
def Channel.closeCh (ch : Channel) : Option Channel :=
  if ch.closed then none else some { ch with closed := true }

/-- A `*Client` as seen by the hub: its pointer identity (`sid`), and the
`teamID` / `userID` fields used as registry keys. -/
structure Session where
  sid : Nat
  teamID : String
  userID : String
deriving DecidableEq, Repr

/-- The hub state: `clients map[string]map[string]*Client` becomes an
association list from team to an association list from user to session id;
the per-client channels live in a separate store so that a stale `*Client`
reference and the map entry can disagree, as in Go. -/
structure Hub where
  clients : List (String × List (String × Nat))
  chans : List (Nat × Channel)
deriving DecidableEq, Repr

/-- The register branch of `(*Hub).run`: create the team map if absent
and assign `h.clients[client.teamID][client.userID] = client`.  It touches
no channel. -/
def Hub.register (h : Hub) (s : Session) : Hub :=
  let team := match lookupA h.clients s.teamID with
    | some m => m
    | none => []
  { h with clients := insertA h.clients s.teamID (insertA team s.userID s.sid) }

/-- The unregister branch of `(*Hub).run`: if the (teamID, userID) key is
present (no identity comparison with the stored client), delete it, close
the UNREGISTERING client's own channel, and delete the team entry when it
became empty.  `none` models the panic of closing an already-closed
channel. -/
def Hub.unregister (h : Hub) (s : Session) : Option Hub :=
  match lookupA h.clients s.teamID with
  | none => some h
  | some team =>
    match lookupA team s.userID with
    | none => some h
    | some _ =>
      let team' := eraseA team s.userID
      match lookupA h.chans s.sid with
      | none => none
      | some ch =>
        match ch.closeCh with
        | none => none
        | some ch' =>
          let clients' := if team' = [] then eraseA h.clients s.teamID
            else insertA h.clients s.teamID team'
          some { clients := clients', chans := insertA h.chans s.sid ch' }

/-- `(*Hub).sendToUser`: look up the member and attempt a non-blocking
enqueue; a full buffer reports `false` and changes nothing (the full-buffer
branch only logs; it does not close or delete the client). -/
def Hub.sendToUser (h : Hub) (teamID userID : String) (m : Message) :
    Option (Bool × Hub) :=
  match lookupA h.clients teamID with
  | none => some (false, h)
  | some team =>
    match lookupA team userID with
    | none => some (false, h)
    | some sid =>
      match lookupA h.chans sid with
      | none => none
      | some ch =>
        match ch.trySend m with
        | (.sent, ch') => some (true, { h with chans := insertA h.chans sid ch' })
        | (.full, _) => some (false, h)
        | (.panicked, _) => none

/-- The member loop of `(*Hub).broadcastToTeam`: count successful enqueues,
skip members with a full buffer (log only). -/
def broadcastMembers (chans : List (Nat × Channel)) (m : Message) :
    List (String × Nat) → Option (Nat × List (Nat × Channel))
  | [] => some (0, chans)
  | (_, sid) :: rest =>
    match lookupA chans sid with
    | none => none
    | some ch =>
      match ch.trySend m with
      | (.sent, ch') =>
        (broadcastMembers (insertA chans sid ch') m rest).map fun nc => (nc.1 + 1, nc.2)
      | (.full, _) => broadcastMembers chans m rest
      | (.panicked, _) => none

/-- `(*Hub).broadcastToTeam`: returns the count of successful enqueues over
the current members of the team (0 when the team is absent). -/
def Hub.broadcastToTeam (h : Hub) (teamID : String) (m : Message) :
    Option (Nat × Hub) :=
  match lookupA h.clients teamID with
  | none => some (0, h)
  | some team =>
    (broadcastMembers h.chans m team).map fun nc => (nc.1, { h with chans := nc.2 })

/-- The team loop of `(*Hub).broadcastToAllTeams`. -/
def broadcastTeams (chans : List (Nat × Channel)) (m : Message) :
    List (String × List (String × Nat)) → Option (Nat × List (Nat × Channel))
  | [] => some (0, chans)
  | (_, team) :: rest =>
    match broadcastMembers chans m team with
    | none => none
    | some (n, chans') =>
      (broadcastTeams chans' m rest).map fun nc => (n + nc.1, nc.2)

/-- `(*Hub).broadcastToAllTeams`. -/
def Hub.broadcastToAllTeams (h : Hub) (m : Message) : Option (Nat × Hub) :=
  (broadcastTeams h.chans m h.clients).map fun nc => (nc.1, { h with chans := nc.2 })

/-- `(*Hub).getTotalClientCount`. -/
def Hub.getTotalClientCount (h : Hub) : Nat :=
  (h.clients.map fun p => p.2.length).sum

/-- `(*Hub).healthCheck`: (total_teams, total_clients). -/
def Hub.healthCheck (h : Hub) : Nat × Nat :=
  (h.clients.length, h.getTotalClientCount)

/-- Key wellformedness that Go maps guarantee by construction: no duplicate
team keys, no duplicate user keys within a team. -/
def Hub.WFkeys (h : Hub) : Prop :=
  (h.clients.map Prod.fst).Nodup ∧ ∀ p ∈ h.clients, (p.2.map Prod.fst).Nodup

instance (h : Hub) : Decidable h.WFkeys := by
  unfold Hub.WFkeys; infer_instance

/-- The session id currently registered for a (team, user) pair, if any. -/
def Hub.member (h : Hub) (teamID userID : String) : Option Nat :=
  match lookupA h.clients teamID with
  | none => none
  | some team => lookupA team userID

/-- A fresh default-capacity open channel (`make(chan []byte, 256)`). -/
def freshChan : Channel := ⟨256, [], false⟩

/-- Registry after registering session 1 and then session 2 on the same
(team, user) pair, both with fresh open channels. -/
def hubSuperseded : Hub :=
  Hub.register (Hub.register ⟨[], [(1, freshChan), (2, freshChan)]⟩ ⟨1, "team_1", "user_1"⟩)
    ⟨2, "team_1", "user_1"⟩

/-- Claim C1, counterexample: registering a second session for an occupied
(team, user) pair does NOT close the outbound queue of the superseded session:
after session 2 supersedes session 1 in the map, the channel of session 1 is
unchanged and still open (the register branch never touches any channel),
refuting the claim that register closes the previous queue before or
atomically with the insertion. -/
theorem register_does_not_close_superseded :
    hubSuperseded.clients = [("team_1", [("user_1", 2)])] ∧
    hubSuperseded.chans = [(1, freshChan), (2, freshChan)] ∧
    lookupA hubSuperseded.chans 1 = some freshChan ∧
    freshChan.closed = false :=
  ⟨rfl, rfl, rfl, rfl⟩

/-- Claim C1, amended: the register branch inserts the new session as the unique
binding of its (team, user) pair — the previous occupant is replaced in the
map in the same step, so the registry never holds two sessions for the pair
— but it leaves the channel store entirely untouched: the superseded
queue of the superseded session is not closed and remains whatever it was. -/
theorem register_replaces_without_closing (h : Hub) (s : Session) :
    (Hub.register h s).chans = h.chans ∧
    Hub.member (Hub.register h s) s.teamID s.userID = some s.sid ∧
    (∀ t, t ≠ s.teamID → lookupA (Hub.register h s).clients t = lookupA h.clients t) := by
  refine ⟨rfl, ?_, ?_⟩
  · unfold Hub.member Hub.register
    simp only [lookupA_insertA_self]
  · intro t ht
    unfold Hub.register
    exact lookupA_insertA_ne _ _ _ _ (fun hEq => ht hEq.symm)

/-- The hub reached from `hubSuperseded` by the stale unregister of the
superseded session 1. -/
def hubAfterStaleUnregister : Hub :=
  ⟨[], [(1, ⟨256, [], true⟩), (2, freshChan)]⟩

/-- Claim C4, counterexample: the unregister branch compares only the (team, user)
key, not the stored client identity: a stale unregister for superseded
session 1 evicts the superseding session 2 (the pair maps to nothing
afterwards), refuting the claim that the entry is removed only when the
stored session is the same instance. -/
theorem stale_unregister_evicts_superseder :
    Hub.unregister hubSuperseded ⟨1, "team_1", "user_1"⟩ = some hubAfterStaleUnregister ∧
    Hub.member hubSuperseded "team_1" "user_1" = some 2 ∧
    Hub.member hubAfterStaleUnregister "team_1" "user_1" = none := by
  refine ⟨?_, rfl, rfl⟩
  rfl

theorem eraseA_eq_nil {α β : Type} [DecidableEq α] (l : List (α × β)) (k : α)
    (h : eraseA l k = []) : l = [] ∨ ∃ v, l = [(k, v)] := by
  cases l with
  | nil => exact Or.inl rfl
  | cons p rest =>
    obtain ⟨k', v'⟩ := p
    rw [eraseA_cons] at h
    by_cases h₀ : k' = k
    · subst h₀
      rw [if_pos rfl] at h
      exact Or.inr ⟨v', by rw [h]⟩
    · rw [if_neg h₀] at h
      exact absurd h (List.cons_ne_nil _ _)

theorem length_eraseA_of_lookup {α β : Type} [DecidableEq α] (l : List (α × β)) (k : α) (v : β)
    (h : lookupA l k = some v) : (eraseA l k).length + 1 = l.length := by
  induction l with
  | nil => simp [lookupA] at h
  | cons p rest ih =>
    obtain ⟨k', v'⟩ := p
    by_cases h₀ : k' = k
    · simp [eraseA, h₀]
    · simp only [lookupA, if_neg h₀] at h
      simp [eraseA, h₀, ih h]

/-- A no-op unregister: when the (team, user) pair is not in the map the
unregister branch changes nothing (and in particular closes nothing). -/
theorem unregister_noop_of_absent (h : Hub) (s : Session)
    (habs : Hub.member h s.teamID s.userID = none) :
    Hub.unregister h s = some h := by
  unfold Hub.member at habs
  unfold Hub.unregister
  rcases hteam : lookupA h.clients s.teamID with _ | team
  · simp [hteam]
  · simp only [hteam] at habs
    simp [hteam, habs]

/-- After a completed unregister the pair is gone from the map. -/
theorem member_none_after_unregister (h : Hub) (s : Session) (hwf : h.WFkeys)
    (h' : Hub) (hun : Hub.unregister h s = some h') :
    Hub.member h' s.teamID s.userID = none := by
  unfold Hub.unregister at hun
  rcases hteam : lookupA h.clients s.teamID with _ | team
  · simp only [hteam] at hun
    cases hun
    simp [Hub.member, hteam]
  · simp only [hteam] at hun
    rcases huser : lookupA team s.userID with _ | sid'
    · simp only [huser] at hun
      cases hun
      simp [Hub.member, hteam, huser]
    · simp only [huser] at hun
      rcases hch : lookupA h.chans s.sid with _ | ch
      · simp only [hch] at hun
        cases hun
      · simp only [hch] at hun
        rcases hcl : ch.closeCh with _ | ch'
        · simp only [hcl] at hun
          cases hun
        · simp only [hcl, Option.some.injEq] at hun
          subst hun
          have hteamnodup : (team.map Prod.fst).Nodup :=
            hwf.2 _ (lookupA_mem _ _ _ hteam)
          simp only [Hub.member]
          by_cases hempty : eraseA team s.userID = []
          · rw [if_pos hempty, lookupA_eraseA_self _ _ hwf.1]
          · rw [if_neg hempty, lookupA_insertA_self]
            show lookupA (eraseA team s.userID) s.userID = none
            exact lookupA_eraseA_self _ _ hteamnodup

/-- Claim C4, amended: unregister removes the (team, user) entry whenever any
session occupies that key — the identity of the stored client is not
compared, so a stale unregister evicts a superseding session — closes the
own queue of the UNREGISTERING session, removes the team entry when it became
empty, and is idempotent in the sense that once a given unregister has
completed, repeating it is a no-op; members under other keys and other
teams are untouched. -/
theorem unregister_removes_key_unconditionally (h : Hub) (s : Session) (hwf : h.WFkeys) :
    (Hub.member h s.teamID s.userID = none → Hub.unregister h s = some h) ∧
    (∀ h', Hub.unregister h s = some h' → Hub.member h' s.teamID s.userID = none) ∧
    (∀ h', Hub.unregister h s = some h' → Hub.unregister h' s = some h') ∧
    (∀ sid' ch, Hub.member h s.teamID s.userID = some sid' →
      lookupA h.chans s.sid = some ch → ch.closed = false →
      ∃ h', Hub.unregister h s = some h' ∧
        lookupA h'.chans s.sid = some { ch with closed := true } ∧
        (∀ u, u ≠ s.userID → Hub.member h' s.teamID u = Hub.member h s.teamID u) ∧
        (∀ t, t ≠ s.teamID → lookupA h'.clients t = lookupA h.clients t) ∧
        (lookupA h.clients s.teamID = some [(s.userID, sid')] →
          lookupA h'.clients s.teamID = none)) := by
  refine ⟨unregister_noop_of_absent h s, member_none_after_unregister h s hwf, ?_, ?_⟩
  · intro h' hun
    exact unregister_noop_of_absent h' s (member_none_after_unregister h s hwf h' hun)
  · intro sid' ch hmem hch hopen
    unfold Hub.member at hmem
    rcases hteam : lookupA h.clients s.teamID with _ | team
    · simp only [hteam] at hmem
      cases hmem
    · simp only [hteam] at hmem
      have hclose : ch.closeCh = some { ch with closed := true } := by
        unfold Channel.closeCh
        rw [hopen]
        rfl
      refine ⟨⟨if eraseA team s.userID = [] then eraseA h.clients s.teamID
        else insertA h.clients s.teamID (eraseA team s.userID),
        insertA h.chans s.sid { ch with closed := true }⟩, ?_, ?_, ?_, ?_, ?_⟩
      · unfold Hub.unregister
        simp only [hteam, hmem, hch, hclose]
      · exact lookupA_insertA_self _ _ _
      · intro u hu
        have hne : s.userID ≠ u := fun hEq => hu hEq.symm
        unfold Hub.member
        simp only [hteam]
        by_cases hempty : eraseA team s.userID = []
        · rw [if_pos hempty, lookupA_eraseA_self _ _ hwf.1]
          rcases eraseA_eq_nil team s.userID hempty with hnil | ⟨v, hv⟩
          · subst hnil
            simp [lookupA] at hmem
          · subst hv
            simp [lookupA_cons, lookupA_nil, hne]
        · rw [if_neg hempty, lookupA_insertA_self]
          show lookupA (eraseA team s.userID) u = lookupA team u
          exact lookupA_eraseA_ne _ _ _ hne
      · intro t ht
        by_cases hempty : eraseA team s.userID = []
        · rw [if_pos hempty]
          exact lookupA_eraseA_ne _ _ _ (fun hEq => ht hEq.symm)
        · rw [if_neg hempty]
          exact lookupA_insertA_ne _ _ _ _ (fun hEq => ht hEq.symm)
      · intro hsingle
        injection hsingle with hsingle
        subst hsingle
        have hempty : eraseA [(s.userID, sid')] s.userID = [] := by
          rw [eraseA_cons, if_pos rfl]
        show lookupA (if eraseA [(s.userID, sid')] s.userID = []
          then eraseA h.clients s.teamID
          else insertA h.clients s.teamID (eraseA [(s.userID, sid')] s.userID)) s.teamID = none
        rw [if_pos hempty]
        exact lookupA_eraseA_self _ _ hwf.1

theorem unregister_removes_key_unconditionally_witness :
    Hub.WFkeys hubSuperseded ∧
    Hub.unregister hubSuperseded ⟨1, "team_1", "user_1"⟩ = some hubAfterStaleUnregister ∧
    Hub.member hubAfterStaleUnregister "team_1" "user_1" = none ∧
    Hub.unregister hubAfterStaleUnregister ⟨1, "team_1", "user_1"⟩ =
      some hubAfterStaleUnregister := by
  have hwf : Hub.WFkeys hubSuperseded := by decide
  have hun : Hub.unregister hubSuperseded ⟨1, "team_1", "user_1"⟩ =
      some hubAfterStaleUnregister := by rfl
  have h2 := (unregister_removes_key_unconditionally hubSuperseded
    ⟨1, "team_1", "user_1"⟩ hwf).2.1 hubAfterStaleUnregister hun
  have h3 := (unregister_removes_key_unconditionally hubSuperseded
    ⟨1, "team_1", "user_1"⟩ hwf).2.2.1 hubAfterStaleUnregister hun
  exact ⟨hwf, hun, h2, h3⟩

/-! ## Targeting seed scenario and registry invariants -/

/-- The payload `M` of the seed scenario. -/
def M7 : Message := ⟨"n1", "team_1", "", "rest", "user_message", "hello", 0⟩

/-- A default-capacity channel holding exactly `M7`. -/
def chanM7 : Channel := ⟨256, [M7], false⟩

/-- The seed registry: (team_1, user_1_1), (team_1, user_1_2),
(team_2, user_2_1), each with a fresh open queue. -/
def hub7 : Hub :=
  ⟨[("team_1", [("user_1_1", 1), ("user_1_2", 2)]), ("team_2", [("user_2_1", 3)])],
   [(1, freshChan), (2, freshChan), (3, freshChan)]⟩

/-- Claim C7: with exactly the three seed sessions registered and all queues
non-full: a team_1 broadcast returns 2 and enqueues the payload to exactly
the two team_1 members; a direct send to (team_1, user_1_1) returns true
and enqueues only to that member; a direct send to a nonexistent user
returns false and enqueues to nobody (the hub is unchanged). -/
theorem targeting_seed_scenario :
    Hub.broadcastToTeam hub7 "team_1" M7 =
      some (2, ⟨hub7.clients, [(1, chanM7), (2, chanM7), (3, freshChan)]⟩) ∧
    Hub.sendToUser hub7 "team_1" "user_1_1" M7 =
      some (true, ⟨hub7.clients, [(1, chanM7), (2, freshChan), (3, freshChan)]⟩) ∧
    Hub.sendToUser hub7 "team_1" "nonexistent" M7 = some (false, hub7) := by
  refine ⟨?_, ?_, ?_⟩ <;> rfl

theorem insertA_ne_nil {α β : Type} [DecidableEq α] (l : List (α × β)) (k : α) (v : β) :
    insertA l k v ≠ [] := by
  cases l with
  | nil => exact List.cons_ne_nil _ _
  | cons p rest =>
    obtain ⟨k', v'⟩ := p
    rw [insertA_cons]
    by_cases h₀ : k' = k
    · rw [if_pos h₀]; exact List.cons_ne_nil _ _
    · rw [if_neg h₀]; exact List.cons_ne_nil _ _

/-- The no-empty-team invariant: every team entry present in the map has at
least one member. -/
def Hub.teamsNonempty (h : Hub) : Prop := ∀ p ∈ h.clients, p.2 ≠ []

instance (h : Hub) : Decidable h.teamsNonempty := by
  unfold Hub.teamsNonempty; infer_instance

theorem teamsNonempty_register (h : Hub) (hinv : h.teamsNonempty) (s : Session) :
    (Hub.register h s).teamsNonempty := by
  intro p hp
  unfold Hub.register at hp
  rcases mem_insertA _ _ _ _ hp with h₁ | h₁
  · exact hinv p h₁
  · rw [h₁]
    exact insertA_ne_nil _ _ _

theorem teamsNonempty_unregister (h : Hub) (hinv : h.teamsNonempty) (s : Session)
    (h' : Hub) (hun : Hub.unregister h s = some h') : h'.teamsNonempty := by
  unfold Hub.unregister at hun
  rcases hteam : lookupA h.clients s.teamID with _ | team
  · simp only [hteam] at hun
    cases hun
    exact hinv
  · simp only [hteam] at hun
    rcases huser : lookupA team s.userID with _ | sid'
    · simp only [huser] at hun
      cases hun
      exact hinv
    · simp only [huser] at hun
      rcases hch : lookupA h.chans s.sid with _ | ch
      · simp only [hch] at hun
        cases hun
      · simp only [hch] at hun
        rcases hcl : ch.closeCh with _ | ch'
        · simp only [hcl] at hun
          cases hun
        · simp only [hcl, Option.some.injEq] at hun
          subst hun
          intro p hp
          by_cases hempty : eraseA team s.userID = []
          · rw [if_pos hempty] at hp
            exact hinv p (mem_eraseA _ _ _ hp)
          · rw [if_neg hempty] at hp
            rcases mem_insertA _ _ _ _ hp with h₁ | h₁
            · exact hinv p h₁
            · rw [h₁]
              exact hempty

theorem sendToUser_clients_eq (h : Hub) (t u : String) (m : Message) (b : Bool) (h' : Hub)
    (hsend : Hub.sendToUser h t u m = some (b, h')) : h'.clients = h.clients := by
  unfold Hub.sendToUser at hsend
  rcases hteam : lookupA h.clients t with _ | team
  · simp only [hteam, Option.some.injEq, Prod.mk.injEq] at hsend
    rw [← hsend.2]
  · simp only [hteam] at hsend
    rcases huser : lookupA team u with _ | sid
    · simp only [huser, Option.some.injEq, Prod.mk.injEq] at hsend
      rw [← hsend.2]
    · simp only [huser] at hsend
      rcases hch : lookupA h.chans sid with _ | ch
      · simp only [hch] at hsend
        cases hsend
      · simp only [hch] at hsend
        rcases hts : ch.trySend m with ⟨out, ch2⟩
        cases out with
        | sent =>
          simp only [hts, Option.some.injEq, Prod.mk.injEq] at hsend
          rw [← hsend.2]
        | full =>
          simp only [hts, Option.some.injEq, Prod.mk.injEq] at hsend
          rw [← hsend.2]
        | panicked =>
          simp only [hts] at hsend
          cases hsend

theorem broadcastToTeam_clients_eq (h : Hub) (t : String) (m : Message) (n : Nat) (h' : Hub)
    (hb : Hub.broadcastToTeam h t m = some (n, h')) : h'.clients = h.clients := by
  unfold Hub.broadcastToTeam at hb
  rcases hteam : lookupA h.clients t with _ | team
  · simp only [hteam, Option.some.injEq, Prod.mk.injEq] at hb
    rw [← hb.2]
  · simp only [hteam] at hb
    rcases hbm : broadcastMembers h.chans m team with _ | nc
    · simp only [hbm, Option.map_none'] at hb
      cases hb
    · simp only [hbm, Option.map_some', Option.some.injEq, Prod.mk.injEq] at hb
      rw [← hb.2]

theorem broadcastToAllTeams_clients_eq (h : Hub) (m : Message) (n : Nat) (h' : Hub)
    (hb : Hub.broadcastToAllTeams h m = some (n, h')) : h'.clients = h.clients := by
  unfold Hub.broadcastToAllTeams at hb
  rcases hbt : broadcastTeams h.chans m h.clients with _ | nc
  · simp only [hbt, Option.map_none'] at hb
    cases hb
  · simp only [hbt, Option.map_some', Option.some.injEq, Prod.mk.injEq] at hb
    rw [← hb.2]

/-- Claim C3: every registry operation preserves the invariant that a team key
is present if and only if the team has at least one member; in particular
unregistering the last member of a team removes the team entry, after
which the health diagnostics exclude that team (the team count drops by
one and the team no longer resolves). -/
theorem registry_ops_preserve_team_invariant (h : Hub) (hinv : h.teamsNonempty)
    (hwf : h.WFkeys) :
    (∀ s, (Hub.register h s).teamsNonempty) ∧
    (∀ s h', Hub.unregister h s = some h' → h'.teamsNonempty) ∧
    (∀ t u m b h', Hub.sendToUser h t u m = some (b, h') → h'.teamsNonempty) ∧
    (∀ t m n h', Hub.broadcastToTeam h t m = some (n, h') → h'.teamsNonempty) ∧
    (∀ m n h', Hub.broadcastToAllTeams h m = some (n, h') → h'.teamsNonempty) ∧
    (∀ s sid' h', lookupA h.clients s.teamID = some [(s.userID, sid')] →
      Hub.unregister h s = some h' →
      lookupA h'.clients s.teamID = none ∧
      h'.clients.length + 1 = h.clients.length ∧
      (Hub.healthCheck h').1 + 1 = (Hub.healthCheck h).1) := by
  refine ⟨teamsNonempty_register h hinv, fun s h' => teamsNonempty_unregister h hinv s h',
    ?_, ?_, ?_, ?_⟩
  · intro t u m b h' hsend
    intro p hp
    rw [sendToUser_clients_eq h t u m b h' hsend] at hp
    exact hinv p hp
  · intro t m n h' hb
    intro p hp
    rw [broadcastToTeam_clients_eq h t m n h' hb] at hp
    exact hinv p hp
  · intro m n h' hb
    intro p hp
    rw [broadcastToAllTeams_clients_eq h m n h' hb] at hp
    exact hinv p hp
  · intro s sid' h' hteam hun
    have huser : lookupA [(s.userID, sid')] s.userID = some sid' := by
      rw [lookupA_cons, if_pos rfl]
    have hempty : eraseA [(s.userID, sid')] s.userID = [] := by
      rw [eraseA_cons, if_pos rfl]
    unfold Hub.unregister at hun
    simp only [hteam, huser] at hun
    rcases hch : lookupA h.chans s.sid with _ | ch
    · simp only [hch] at hun
      cases hun
    · simp only [hch] at hun
      rcases hcl : ch.closeCh with _ | ch'
      · simp only [hcl] at hun
        cases hun
      · simp only [hcl, Option.some.injEq] at hun
        subst hun
        rw [if_pos hempty]
        refine ⟨lookupA_eraseA_self _ _ hwf.1, ?_, ?_⟩
        · exact length_eraseA_of_lookup _ _ _ hteam
        · unfold Hub.healthCheck
          exact length_eraseA_of_lookup _ _ _ hteam

/-- The registry after the last member of team_2 has unregistered. -/
def hubAfterLastUnregister : Hub :=
  ⟨[("team_1", [("user_1_1", 1), ("user_1_2", 2)])],
   [(1, freshChan), (2, freshChan), (3, ⟨256, [], true⟩)]⟩

theorem registry_ops_preserve_team_invariant_witness :
    Hub.teamsNonempty hub7 ∧ Hub.WFkeys hub7 ∧
    Hub.teamsNonempty (Hub.register hub7 ⟨4, "team_3", "user_3_1"⟩) ∧
    Hub.unregister hub7 ⟨3, "team_2", "user_2_1"⟩ = some hubAfterLastUnregister ∧
    lookupA hubAfterLastUnregister.clients "team_2" = none ∧
    hubAfterLastUnregister.clients.length + 1 = hub7.clients.length := by
  have hinv : Hub.teamsNonempty hub7 := by decide
  have hwf : Hub.WFkeys hub7 := by decide
  have hun : Hub.unregister hub7 ⟨3, "team_2", "user_2_1"⟩ = some hubAfterLastUnregister := by
    rfl
  have hmain := registry_ops_preserve_team_invariant hub7 hinv hwf
  have hlast := hmain.2.2.2.2.2 ⟨3, "team_2", "user_2_1"⟩ 3 hubAfterLastUnregister
    (by rfl) hun
  exact ⟨hinv, hwf, hmain.1 ⟨4, "team_3", "user_3_1"⟩, hun, hlast.1, hlast.2.1⟩

/-! ## Backpressure: a full queue is skipped, never evicted (C2) -/

/-- Whether a non-blocking enqueue on the channel of `sid` would succeed. -/
def hasRoom (chans : List (Nat × Channel)) (sid : Nat) : Bool :=
  match lookupA chans sid with
  | some ch => !ch.closed && decide (ch.buf.length < ch.cap)
  | none => false

theorem length_filter_lt_of_mem_not {α : Type} (l : List α) (pred : α → Bool) (a : α)
    (ha : a ∈ l) (hpa : pred a = false) : (l.filter pred).length < l.length := by
  induction l with
  | nil => cases ha
  | cons b rest ih =>
    rw [List.mem_cons] at ha
    rw [List.filter_cons]
    by_cases hb : pred b = true
    · have hab : a ≠ b := fun hEq => by rw [hEq, hb] at hpa; cases hpa
      have ha' : a ∈ rest := ha.resolve_left hab
      rw [if_pos hb]
      simpa using Nat.succ_lt_succ (ih ha')
    · rw [if_neg hb]
      calc (rest.filter pred).length ≤ rest.length := List.length_filter_le _ _
        _ < rest.length + 1 := Nat.lt_succ_self _

/-- The member loop of `broadcastToTeam`, specified: when every member of
the team has an open channel (described by the reference store `chans0`,
which agrees with the working store on the members) and member session ids
are distinct, the loop succeeds, counts exactly the members whose channel
has room, and leaves untouched every channel that is not a member channel
or that was full. -/
theorem broadcastMembers_count (m : Message) :
    ∀ (team : List (String × Nat)) (chans chans0 : List (Nat × Channel)),
    (∀ p ∈ team, lookupA chans p.2 = lookupA chans0 p.2) →
    (∀ p ∈ team, ∃ ch, lookupA chans0 p.2 = some ch ∧ ch.closed = false) →
    (team.map Prod.snd).Nodup →
    ∃ chans', broadcastMembers chans m team =
        some ((team.filter fun p => hasRoom chans0 p.2).length, chans') ∧
      ∀ sid, (sid ∉ team.map Prod.snd ∨ hasRoom chans0 sid = false) →
        lookupA chans' sid = lookupA chans sid := by
  intro team
  induction team with
  | nil =>
    intro chans chans0 _ _ _
    exact ⟨chans, rfl, fun _ _ => rfl⟩
  | cons p rest ih =>
    intro chans chans0 heq hopen hnodup
    obtain ⟨u, sid⟩ := p
    obtain ⟨ch, hch0, hchopen⟩ := hopen (u, sid) (List.mem_cons_self _ _)
    have hch : lookupA chans sid = some ch := by
      rw [heq (u, sid) (List.mem_cons_self _ _), hch0]
    simp only [List.map_cons, List.nodup_cons] at hnodup
    by_cases hroom : ch.buf.length < ch.cap
    · -- head is enqueued
      have hts : ch.trySend m = (.sent, { ch with buf := ch.buf ++ [m] }) := by
        unfold Channel.trySend
        rw [hchopen, if_neg (by simp), if_pos hroom]
      have hhead : hasRoom chans0 sid = true := by
        unfold hasRoom
        rw [hch0]
        simp [hchopen, hroom]
      obtain ⟨chans', hbm', hpres'⟩ := ih (insertA chans sid { ch with buf := ch.buf ++ [m] })
        chans0
        (fun q hq => by
          rw [lookupA_insertA_ne _ _ _ _
            (fun hEq => hnodup.1 (by rw [hEq]; exact List.mem_map_of_mem _ hq))]
          exact heq q (List.mem_cons_of_mem _ hq))
        (fun q hq => hopen q (List.mem_cons_of_mem _ hq))
        hnodup.2
      refine ⟨chans', ?_, ?_⟩
      · simp only [broadcastMembers, hch, hts, hbm', Option.map_some']
        rw [List.filter_cons, if_pos (by simpa using hhead)]
        simp [List.length_cons]
      · intro sid' hside
        have hne : sid' ≠ sid := by
          intro hEq
          subst hEq
          rcases hside with hside | hside
          · exact hside (List.mem_cons_self _ _)
          · rw [hhead] at hside
            cases hside
        have hrest : sid' ∉ rest.map Prod.snd ∨ hasRoom chans0 sid' = false := by
          rcases hside with hside | hside
          · exact Or.inl (fun hmem => hside (List.mem_cons_of_mem _ hmem))
          · exact Or.inr hside
        rw [hpres' sid' hrest]
        exact lookupA_insertA_ne _ _ _ _ (fun hEq => hne hEq.symm)
    · -- head queue is full: skipped, channel untouched
      have hts : ch.trySend m = (.full, ch) := by
        unfold Channel.trySend
        rw [hchopen, if_neg (by simp), if_neg hroom]
      have hhead : hasRoom chans0 sid = false := by
        unfold hasRoom
        rw [hch0]
        simp [hchopen, hroom]
      obtain ⟨chans', hbm', hpres'⟩ := ih chans chans0
        (fun q hq => heq q (List.mem_cons_of_mem _ hq))
        (fun q hq => hopen q (List.mem_cons_of_mem _ hq))
        hnodup.2
      refine ⟨chans', ?_, ?_⟩
      · simp only [broadcastMembers, hch, hts, hbm']
        rw [List.filter_cons, if_neg (by simp [hhead])]
      · intro sid' hside
        have hrest : sid' ∉ rest.map Prod.snd ∨ hasRoom chans0 sid' = false := by
          rcases hside with hside | hside
          · exact Or.inl (fun hmem => hside (List.mem_cons_of_mem _ hmem))
          · exact Or.inr hside
        exact hpres' sid' hrest

/-- Claim C2: when the queue of the target member is full (and open), `sendToUser`
returns false and leaves the hub exactly as it was (no eviction, no close);
`broadcastToTeam` succeeds, counts only the members whose queue had room —
omitting the full member, so the count is strictly below the team size —
leaves the registry untouched and leaves the channel of the full member exactly
as it was. -/
theorem full_queue_skipped_not_evicted (h : Hub) (t u : String) (m : Message)
    (team : List (String × Nat)) (sid : Nat) (ch : Channel)
    (hteam : lookupA h.clients t = some team)
    (huser : lookupA team u = some sid)
    (hch : lookupA h.chans sid = some ch)
    (hopen : ch.closed = false)
    (hfull : ch.cap ≤ ch.buf.length)
    (hall : ∀ p ∈ team, ∃ ch', lookupA h.chans p.2 = some ch' ∧ ch'.closed = false)
    (hnodup : (team.map Prod.snd).Nodup) :
    Hub.sendToUser h t u m = some (false, h) ∧
    ∃ n h', Hub.broadcastToTeam h t m = some (n, h') ∧
      h'.clients = h.clients ∧
      lookupA h'.chans sid = some ch ∧
      n = (team.filter fun p => hasRoom h.chans p.2).length ∧
      hasRoom h.chans sid = false ∧
      n < team.length := by
  have hnotroom : ¬ ch.buf.length < ch.cap := Nat.not_lt.mpr hfull
  have hts : ch.trySend m = (.full, ch) := by
    unfold Channel.trySend
    rw [hopen, if_neg (by simp), if_neg hnotroom]
  have hnoroom : hasRoom h.chans sid = false := by
    unfold hasRoom
    rw [hch]
    simp [hopen, hnotroom]
  constructor
  · unfold Hub.sendToUser
    simp only [hteam, huser, hch, hts]
  · obtain ⟨chans', hbm', hpres'⟩ := broadcastMembers_count m team h.chans h.chans
      (fun _ _ => rfl) hall hnodup
    refine ⟨(team.filter fun p => hasRoom h.chans p.2).length, ⟨h.clients, chans'⟩,
      ?_, rfl, ?_, rfl, hnoroom, ?_⟩
    · unfold Hub.broadcastToTeam
      simp only [hteam, hbm', Option.map_some']
    · rw [hpres' sid (Or.inr hnoroom)]
      exact hch
    · exact length_filter_lt_of_mem_not team _ (u, sid) (lookupA_mem _ _ _ huser) hnoroom

/-- A hub where (team_1, user_1_1) has a full single-slot queue and
(team_1, user_1_2) has a fresh queue. -/
def hubFull : Hub :=
  ⟨[("team_1", [("user_1_1", 1), ("user_1_2", 2)])],
   [(1, ⟨1, [M7], false⟩), (2, freshChan)]⟩

theorem full_queue_skipped_not_evicted_witness :
    Hub.sendToUser hubFull "team_1" "user_1_1" M7 = some (false, hubFull) ∧
    ∃ n h', Hub.broadcastToTeam hubFull "team_1" M7 = some (n, h') ∧
      h'.clients = hubFull.clients ∧
      lookupA h'.chans 1 = some ⟨1, [M7], false⟩ ∧
      n = (([("user_1_1", 1), ("user_1_2", 2)] : List (String × Nat)).filter
        fun p => hasRoom hubFull.chans p.2).length ∧
      hasRoom hubFull.chans 1 = false ∧
      n < ([("user_1_1", 1), ("user_1_2", 2)] : List (String × Nat)).length :=
  full_queue_skipped_not_evicted hubFull "team_1" "user_1_1" M7
    [("user_1_1", 1), ("user_1_2", 2)] 1 ⟨1, [M7], false⟩
    rfl rfl rfl rfl (by decide) (by decide) (by decide)

/-! ## REST send boundary (spec-modelled) -/

/-- `MessageRequest` in models.go (the REST /send body). -/
structure MessageRequest where
  notificationID : String
  targetTeamID : String
  senderUserID : String
  targetUserID : String
  messageType : String
  body : String
  broadcast : Bool
deriving DecidableEq, Repr

/-- Outcome of the /send handler: a 400 rejection before any router call,
or a 200 response carrying success, delivered and the updated hub. -/
inductive SendHTTPResult where
  | badRequest (msg : String)
  | ok (success : Bool) (delivered : Nat) (hub : Hub)
deriving DecidableEq, Repr

/-- Modelled from the spec: the current `handleSendMessage` body is missing
from src/ — the handlers.go revision present predates the current
`MessageRequest` (it reads fields that no longer exist), while
handlers_test.go exercises the newer behaviour.  Per spec section 6:
`message_type` is required; with broadcast=true `target_user_id` must be
empty and an empty `target_team_id` means all teams; with broadcast=false
both `target_team_id` and `target_user_id` are required; the response
carries `delivered` = the number of successful enqueues and `success` =
delivered > 0. -/
def handleSendMessage (h : Hub) (req : MessageRequest) (now : Int) :
    Option SendHTTPResult :=
  if req.messageType = "" then
    some (.badRequest "Missing required field: MessageType")
  else if req.broadcast = true ∧ req.targetUserID ≠ "" then
    some (.badRequest "Cannot specify TargetUserID when Broadcast is true")
  else if req.broadcast = false ∧ (req.targetTeamID = "" ∨ req.targetUserID = "") then
    some (.badRequest "Must specify a TeamID and TargetUserID for non-broadcast messages")
  else
    let m := NewMessage req.notificationID req.targetTeamID req.targetUserID
      req.senderUserID req.messageType req.body now
    if req.broadcast = true then
      if req.targetTeamID = "" then
        (Hub.broadcastToAllTeams h m).map fun nh => .ok (decide (0 < nh.1)) nh.1 nh.2
      else
        (Hub.broadcastToTeam h req.targetTeamID m).map fun nh => .ok (decide (0 < nh.1)) nh.1 nh.2
    else
      (Hub.sendToUser h req.targetTeamID req.targetUserID m).map
        fun bh => .ok bh.1 (if bh.1 then 1 else 0) bh.2

/-- Claim C8: boundary validation and response shape of the REST send handler:
requests with a missing message_type, with broadcast=true and a target
user, or with broadcast=false and a missing team or user target, are
rejected before any router call; every accepted request is answered from
the router result with delivered = the successful-enqueue count of the router
(0 or 1 for a direct send) and success = (delivered > 0). -/
theorem send_handler_validation_and_delivery (h : Hub) (req : MessageRequest) (now : Int) :
    (req.messageType = "" → handleSendMessage h req now =
      some (.badRequest "Missing required field: MessageType")) ∧
    (req.messageType ≠ "" → req.broadcast = true → req.targetUserID ≠ "" →
      handleSendMessage h req now =
        some (.badRequest "Cannot specify TargetUserID when Broadcast is true")) ∧
    (req.messageType ≠ "" → req.broadcast = false →
      (req.targetTeamID = "" ∨ req.targetUserID = "") →
      handleSendMessage h req now =
        some (.badRequest "Must specify a TeamID and TargetUserID for non-broadcast messages")) ∧
    (∀ b h', req.messageType ≠ "" → req.broadcast = false → req.targetTeamID ≠ "" →
      req.targetUserID ≠ "" →
      Hub.sendToUser h req.targetTeamID req.targetUserID
        (NewMessage req.notificationID req.targetTeamID req.targetUserID
          req.senderUserID req.messageType req.body now) = some (b, h') →
      handleSendMessage h req now = some (.ok b (if b then 1 else 0) h') ∧
        (if b then 1 else 0 : Nat) ≤ 1 ∧ b = decide (0 < (if b then 1 else 0 : Nat))) ∧
    (∀ n h', req.messageType ≠ "" → req.broadcast = true → req.targetUserID = "" →
      req.targetTeamID ≠ "" →
      Hub.broadcastToTeam h req.targetTeamID
        (NewMessage req.notificationID req.targetTeamID req.targetUserID
          req.senderUserID req.messageType req.body now) = some (n, h') →
      handleSendMessage h req now = some (.ok (decide (0 < n)) n h')) ∧
    (∀ n h', req.messageType ≠ "" → req.broadcast = true → req.targetUserID = "" →
      req.targetTeamID = "" →
      Hub.broadcastToAllTeams h
        (NewMessage req.notificationID req.targetTeamID req.targetUserID
          req.senderUserID req.messageType req.body now) = some (n, h') →
      handleSendMessage h req now = some (.ok (decide (0 < n)) n h')) := by
  refine ⟨?_, ?_, ?_, ?_, ?_, ?_⟩
  · intro hmt
    unfold handleSendMessage
    rw [if_pos hmt]
  · intro hmt hb htu
    unfold handleSendMessage
    rw [if_neg hmt, if_pos ⟨hb, htu⟩]
  · intro hmt hb htarget
    unfold handleSendMessage
    rw [if_neg hmt, if_neg (by rw [hb]; rintro ⟨h1, _⟩; cases h1),
      if_pos ⟨hb, htarget⟩]
  · intro b h' hmt hb htt htu hsend
    unfold handleSendMessage
    rw [if_neg hmt, if_neg (by rw [hb]; rintro ⟨h1, _⟩; cases h1),
      if_neg (by rintro ⟨_, h2 | h2⟩; exact htt h2; exact htu h2),
      if_neg (by rw [hb]; intro h1; cases h1)]
    simp only [hsend, Option.map_some']
    exact ⟨by simp, by cases b <;> simp, by cases b <;> simp⟩
  · intro n h' hmt hb htu htt hbr
    unfold handleSendMessage
    rw [if_neg hmt, if_neg (by rintro ⟨_, h2⟩; exact h2 htu),
      if_neg (by rw [hb]; rintro ⟨h1, _⟩; cases h1), if_pos hb, if_neg htt]
    simp only [hbr, Option.map_some']
  · intro n h' hmt hb htu htt hbr
    unfold handleSendMessage
    rw [if_neg hmt, if_neg (by rintro ⟨_, h2⟩; exact h2 htu),
      if_neg (by rw [hb]; rintro ⟨h1, _⟩; cases h1), if_pos hb, if_pos htt]
    simp only [hbr, Option.map_some']

/-- The direct-send request of the witness scenario. -/
def reqDirect : MessageRequest :=
  ⟨"n1", "team_1", "rest", "user_1_1", "user_message", "hello", false⟩

/-- The message the handler builds for `reqDirect` at time 0. -/
def msgDirect : Message := ⟨"n1", "team_1", "user_1_1", "rest", "user_message", "hello", 0⟩

theorem send_handler_validation_and_delivery_witness :
    handleSendMessage hub7 ⟨"n1", "team_1", "rest", "user_1_1", "", "hello", false⟩ 0 =
      some (.badRequest "Missing required field: MessageType") ∧
    handleSendMessage hub7 ⟨"n1", "", "rest", "user_1_1", "user_message", "hello", true⟩ 0 =
      some (.badRequest "Cannot specify TargetUserID when Broadcast is true") ∧
    handleSendMessage hub7 ⟨"n1", "", "rest", "", "user_message", "hello", false⟩ 0 =
      some (.badRequest "Must specify a TeamID and TargetUserID for non-broadcast messages") ∧
    handleSendMessage hub7 reqDirect 0 =
      some (.ok true 1 ⟨hub7.clients,
        [(1, ⟨256, [msgDirect], false⟩), (2, freshChan), (3, freshChan)]⟩) := by
  refine ⟨?_, ?_, ?_, ?_⟩
  · exact (send_handler_validation_and_delivery hub7
      ⟨"n1", "team_1", "rest", "user_1_1", "", "hello", false⟩ 0).1 rfl
  · exact (send_handler_validation_and_delivery hub7
      ⟨"n1", "", "rest", "user_1_1", "user_message", "hello", true⟩ 0).2.1
      (by decide) rfl (by decide)
  · exact (send_handler_validation_and_delivery hub7
      ⟨"n1", "", "rest", "", "user_message", "hello", false⟩ 0).2.2.1
      (by decide) rfl (Or.inl rfl)
  · exact ((send_handler_validation_and_delivery hub7 reqDirect 0).2.2.2.1 true
      ⟨hub7.clients, [(1, ⟨256, [msgDirect], false⟩), (2, freshChan), (3, freshChan)]⟩
      (by decide) rfl (by decide) (by decide) (by rfl)).1

end NotifServer
